import Mathlib

/-!
Shallow embedding of the table_ocr application (src/main.rs) and proofs of the
specification claims.  Rust strings are modelled as lists of unicode
characters, f64 coordinate scalars as rationals (exact arithmetic; the
floating-point domain has no influence on the claims, which are about
clamping, index arithmetic and control flow), and the fallible / panicking
job pipeline as explicit outcome values.
-/

namespace TableOCR

/-- Strings are modelled as lists of unicode scalar values (Rust `char`). -/
abbrev Str := List Char

/-- Code points with the Unicode White_Space property, the set trimmed by
Rust's `str::trim` and recognised by `char::is_whitespace` /
`str::split_whitespace`. -/
def rustWhitespaceCodes : List Nat :=
  [9, 10, 11, 12, 13, 32, 133, 160, 5760,
   8192, 8193, 8194, 8195, 8196, 8197, 8198, 8199, 8200, 8201, 8202,
   8232, 8233, 8239, 8287, 12288]

/-- Rust `char::is_whitespace`. -/
def isRustWhitespace (c : Char) : Bool :=
  rustWhitespaceCodes.contains c.toNat

/-- Drop matching characters from the end of a string (helper for the
two-sided trims below). -/
def trimEndWith (p : Char → Bool) (s : Str) : Str :=
  (s.reverse.dropWhile p).reverse

/-- Two-sided trim by a character predicate: Rust `str::trim` (with the
whitespace predicate) and `str::trim_matches` (with an equality predicate)
both remove all leading and all trailing matching characters. -/
def trimWith (p : Char → Bool) (s : Str) : Str :=
  trimEndWith p (s.dropWhile p)

/-- Rust `str::trim_matches(c)` for a single-character pattern. -/
def trimMatches (c : Char) (s : Str) : Str :=
  trimWith (fun a => a == c) s

/-- The non-ASCII left single quotation mark U+2018, written in the source as
a character literal inside `trim_matches`. -/
def lsquo : Char := Char.ofNat 8216

/-- ASCII apostrophe U+0027. -/
def apostrophe : Char := Char.ofNat 39

/-- Double quote U+0022. -/
def dquote : Char := Char.ofNat 34

/-- Newline U+000A. -/
def newlineChar : Char := Char.ofNat 10

/-- Rust struct `CleaningOptions` (src/main.rs lines 345-352). -/
structure CleaningOptions where
  trim_whitespace : Bool
  trim_single_quote : Bool
  trim_double_quote : Bool
  no_newlines : Bool
deriving DecidableEq

/-- Rust `impl Default for CleaningOptions` (src/main.rs lines 354-363):
all four flags enabled. -/
def defaultCleaningOptions : CleaningOptions :=
  { trim_whitespace := true
    trim_single_quote := true
    trim_double_quote := true
    no_newlines := true }

/-- The cleaning sequence applied to each job's raw OCR text inside
`BackgroundOCR::on_exec` (src/main.rs lines 480-491), as one function of the
raw text and the options: optional whitespace trim, then optional
`trim_matches` of the ASCII apostrophe followed by `trim_matches` of the
U+2018 glyph, then optional double-quote trim, then optional removal of every
newline (Rust `str::replace` of the newline by the empty string). -/
def cleanText (co : CleaningOptions) (s : Str) : Str :=
  let s1 := if co.trim_whitespace then trimWith isRustWhitespace s else s
  let s2 := if co.trim_single_quote
    then trimMatches lsquo (trimMatches apostrophe s1) else s1
  let s3 := if co.trim_double_quote then trimMatches dquote s2 else s2
  if co.no_newlines then s3.filter (fun c => c != newlineChar) else s3

/-- Step (a) of the cleaner in isolation: outer-whitespace trim when enabled. -/
def cleanStepA (co : CleaningOptions) (s : Str) : Str :=
  if co.trim_whitespace then trimWith isRustWhitespace s else s

/-- Step (b) of the cleaner in isolation: outer single-quote trim (ASCII
apostrophe pass, then U+2018 pass) when enabled. -/
def cleanStepB (co : CleaningOptions) (s : Str) : Str :=
  if co.trim_single_quote
  then trimMatches lsquo (trimMatches apostrophe s) else s

/-- Step (c) of the cleaner in isolation: outer double-quote trim when
enabled. -/
def cleanStepC (co : CleaningOptions) (s : Str) : Str :=
  if co.trim_double_quote then trimMatches dquote s else s

/-- Step (d) of the cleaner in isolation: deletion of every newline character
when enabled. -/
def cleanStepD (co : CleaningOptions) (s : Str) : Str :=
  if co.no_newlines then s.filter (fun c => c != newlineChar) else s

/-- Rust `fn clip(x: f64) -> f64 { x.max(0.0).min(1.0) }`
(src/main.rs lines 334-336). -/
def clip (x : ℚ) : ℚ := min (max x 0) 1

/-- Rust `as usize` cast of a (nonnegative) float: truncation toward zero,
saturating at 0 for negative values; on the clipped nonnegative products used
by `crop_buffer` this is exactly the floor. -/
def toUsize (q : ℚ) : ℕ := (⌊q⌋).toNat

/-- One RGBA pixel (egui `Color32`), channels as natural numbers. -/
structure Color32 where
  r : ℕ
  g : ℕ
  b : ℕ
  a : ℕ
deriving DecidableEq

/-- egui `ColorImage`: a size `[width, height]` and a row-major flat pixel
vector. -/
structure ColorImage where
  size : ℕ × ℕ
  pixels : List Color32
deriving DecidableEq

/-- Pixel bound `i0` of `crop_buffer` (src/main.rs line 397):
`(clip(x1.min(x2)) * width) as usize`. -/
def cropI0 (W : ℕ) (x1 x2 : ℚ) : ℕ := toUsize (clip (min x1 x2) * W)

/-- Pixel bound `i1` of `crop_buffer` (src/main.rs line 398):
`(clip(x1.max(x2)) * width) as usize`. -/
def cropI1 (W : ℕ) (x1 x2 : ℚ) : ℕ := toUsize (clip (max x1 x2) * W)

/-- Pixel bound `j0` of `crop_buffer` (src/main.rs line 399):
`(clip(1.0 - y1.max(y2)) * height) as usize`. -/
def cropJ0 (H : ℕ) (y1 y2 : ℚ) : ℕ := toUsize (clip (1 - max y1 y2) * H)

/-- Pixel bound `j1` of `crop_buffer` (src/main.rs line 400):
`(clip(1.0 - y1.min(y2)) * height) as usize`. -/
def cropJ1 (H : ℕ) (y1 y2 : ℚ) : ℕ := toUsize (clip (1 - min y1 y2) * H)

/-- The four pixel bounds `(i0, i1, j0, j1)` computed at the top of
`crop_buffer` (src/main.rs lines 397-400). -/
def cropBounds (W H : ℕ) (x1 x2 y1 y2 : ℚ) : ℕ × ℕ × ℕ × ℕ :=
  (cropI0 W x1 x2, cropI1 W x1 x2, cropJ0 H y1 y2, cropJ1 H y1 y2)

/-- The flat pixel indices `j * width + i` read by the nested loops of
`crop_buffer` (src/main.rs lines 403-410): `j` ranges over `[j0, j1)`
(outer loop) and `i` over `[i0, i1)` (inner loop). -/
def cropIndices (W i0 i1 j0 j1 : ℕ) : List ℕ :=
  (List.range' j0 (j1 - j0)).flatMap
    (fun j => (List.range' i0 (i1 - i0)).map (fun i => j * W + i))

/-- Rust `fn crop_buffer` (src/main.rs lines 395-412): returns the flat RGBA
byte buffer (four bytes pushed per visited pixel, in read order) and the
reported size `[i1 - i0, j1 - j0]`.  Out-of-range reads are modelled with a
zero default so that the in-bounds property is a theorem about
`cropIndices`, the exact set of indices the Rust code dereferences. -/
def crop_buffer (cim : ColorImage) (x1 x2 y1 y2 : ℚ) : List ℕ × (ℕ × ℕ) :=
  let W := cim.size.1
  let H := cim.size.2
  let b := cropBounds W H x1 x2 y1 y2
  let out := (cropIndices W b.1 b.2.1 b.2.2.1 b.2.2.2).flatMap
    (fun idx =>
      let p := cim.pixels.getD idx ⟨0, 0, 0, 0⟩
      [p.r, p.g, p.b, p.a])
  (out, (b.2.1 - b.1, b.2.2.2 - b.2.2.1))

/-- Rust struct `VertSep` (src/main.rs lines 50-53): a vertical separator at
normalized x position. -/
structure VertSep where
  x : ℚ
deriving DecidableEq

/-- Rust struct `HorizSep` (src/main.rs lines 88-91): a horizontal separator
at normalized y position. -/
structure HorizSep where
  y : ℚ
deriving DecidableEq

/-- Rust struct `Grid` (src/main.rs lines 126-130). -/
structure Grid where
  horizontals : List HorizSep
  verticals : List VertSep
deriving DecidableEq

/-- Rust `impl Default for Grid` (src/main.rs lines 132-147): horizontal
separators at y = 0.8 and 0.9, vertical separators at x = 0.1 and 0.2. -/
def defaultGrid : Grid :=
  { horizontals := [⟨8/10⟩, ⟨9/10⟩], verticals := [⟨1/10⟩, ⟨2/10⟩] }

/-- Ordering relation used by `Grid::sort_horiz`: compare the y scalars. -/
def HorizSep.le (a b : HorizSep) : Prop := a.y ≤ b.y

/-- Ordering relation used by `Grid::sort_vert`: compare the x scalars. -/
def VertSep.le (a b : VertSep) : Prop := a.x ≤ b.x

instance : DecidableRel HorizSep.le := fun a b => inferInstanceAs (Decidable (a.y ≤ b.y))

instance : DecidableRel VertSep.le := fun a b => inferInstanceAs (Decidable (a.x ≤ b.x))

instance : IsTotal HorizSep HorizSep.le := ⟨fun a b => le_total a.y b.y⟩

instance : IsTrans HorizSep HorizSep.le := ⟨fun _ _ _ => le_trans⟩

instance : IsRefl HorizSep HorizSep.le := ⟨fun a => le_refl a.y⟩

instance : IsTotal VertSep VertSep.le := ⟨fun a b => le_total a.x b.x⟩

instance : IsTrans VertSep VertSep.le := ⟨fun _ _ _ => le_trans⟩

instance : IsRefl VertSep VertSep.le := ⟨fun a => le_refl a.x⟩

/-- Rust `Grid::sort_horiz` (src/main.rs lines 150-153): a stable in-place
ascending sort of the horizontal separators by their y position, modelled by
a stable sort with the same ordering. -/
def Grid.sort_horiz (g : Grid) : Grid :=
  { g with horizontals := List.insertionSort HorizSep.le g.horizontals }

/-- Rust `Grid::sort_vert` (src/main.rs lines 154-157). -/
def Grid.sort_vert (g : Grid) : Grid :=
  { g with verticals := List.insertionSort VertSep.le g.verticals }

/-- Model of Rust `f64::partial_cmp` restricted to the embedded coordinate
domain ℚ: the comparison of two rationals always yields an ordering (the
returns-none case of the Rust function arises only for NaN, which has no
counterpart in the embedding, matching the claim's hypothesis that no
position is NaN). -/
def pcmpQ (a b : ℚ) : Option Ordering := some (compare a b)

/-- Rust struct `Extents` (src/main.rs lines 168-174). -/
structure Extents where
  xmin : ℚ
  xmax : ℚ
  ymin : ℚ
  ymax : ℚ
deriving DecidableEq

/-- Rust `TableGrid::update_extents` (src/main.rs lines 383-392): the extents
are the first/last elements of each separator sequence (the source unwraps
`first()`/`last()`; the model supplies a default that is irrelevant for the
nonempty sequences the invariant guarantees). -/
def update_extents (g : Grid) : Extents :=
  { xmin := (g.verticals.headD ⟨0⟩).x
    xmax := (g.verticals.getLastD ⟨0⟩).x
    ymin := (g.horizontals.headD ⟨0⟩).y
    ymax := (g.horizontals.getLastD ⟨0⟩).y }

/-- The grid-editing operations reachable from the annotation UI
(src/main.rs lines 541-550 for the two remove buttons, lines 623-628 for the
two placement clicks): add pushes a new separator at the clicked position,
remove-horizontal erases index 0 and remove-vertical pops the last element,
each only when the sequence currently has more than 2 members. -/
inductive GridOp where
  | addH (y : ℚ)
  | addV (x : ℚ)
  | remH
  | remV
deriving DecidableEq

/-- One UI grid operation applied to a grid (see `GridOp`). -/
def applyOp (g : Grid) : GridOp → Grid
  | .addH y => { g with horizontals := g.horizontals ++ [⟨y⟩] }
  | .addV x => { g with verticals := g.verticals ++ [⟨x⟩] }
  | .remH =>
      if 2 < g.horizontals.length
      then { g with horizontals := g.horizontals.eraseIdx 0 }
      else g
  | .remV =>
      if 2 < g.verticals.length
      then { g with verticals := g.verticals.dropLast }
      else g

/-- Rust struct `TableEdit` (src/main.rs lines 176-178): the assembled table
of cell strings. -/
structure TableEdit where
  items : List (List Str)
deriving DecidableEq

/-- Rust `slice::windows(2)` specialised to pairs: the list of adjacent
element pairs. -/
def windows2 : List α → List (α × α)
  | a :: b :: rest => (a, b) :: windows2 (b :: rest)
  | _ => []

/-- Rust `Iterator::enumerate`, modelled as zipping with the index range. -/
def enumerate (l : List α) : List (ℕ × α) :=
  (List.range l.length).zip l

/-- Per-job external environment: the outcome of every fallible interaction
one recognition job has with the outside world inside
`BackgroundOCR::on_exec` (src/main.rs lines 451-478).  `exitCode` is the
status the external process exits with; the source never inspects it (it
only propagates an error of `wait` itself, modelled by `waitOk`). -/
structure JobEnv where
  saveOk : Bool
  spawnOk : Bool
  waitOk : Bool
  exitCode : ℤ
  readResult : Option Str
  removeImgOk : Bool
  removeTxtOk : Bool
deriving DecidableEq

/-- How one job resolves: `panicked` models the `unwrap` on `save_img`
(a panic propagates out of the rayon worker and aborts the whole run),
`failed` models an early `return Err(..)` through the `?` operator
(contained to the job), and `ok` carries the cleaned cell text. -/
inductive JobOutcome where
  | panicked
  | failed
  | ok (s : Str)
deriving DecidableEq

/-- Bool test for the panicked outcome. -/
def JobOutcome.isPanic : JobOutcome → Bool
  | .panicked => true
  | _ => false

/-- A job's resolution together with which of the two temporary files were
actually deleted on its way out. -/
structure JobResult where
  outcome : JobOutcome
  imgDeleted : Bool
  txtDeleted : Bool
deriving DecidableEq

/-- The body of one recognition job closure (src/main.rs lines 451-495), as a
function of the cleaning options and the job's external environment, in the
source's statement order: save the crop (`unwrap`: failure panics), spawn the
process (`?`), wait on it (`?`; the exit status itself is not examined), read
the output text file (`?`), remove the crop image (`?`), remove the text
file (`?`), then clean the text and succeed.  Each `?` failure leaves the
remaining statements unexecuted, which is what makes the deletion flags
observable. -/
def runJob (co : CleaningOptions) (env : JobEnv) : JobResult :=
  if !env.saveOk then ⟨.panicked, false, false⟩
  else if !env.spawnOk then ⟨.failed, false, false⟩
  else if !env.waitOk then ⟨.failed, false, false⟩
  else
    match env.readResult with
    | none => ⟨.failed, false, false⟩
    | some raw =>
      if !env.removeImgOk then ⟨.failed, false, false⟩
      else if !env.removeTxtOk then ⟨.failed, true, false⟩
      else ⟨.ok (cleanText co raw), true, true⟩

/-- Write `v` into row `i`, column `j` of a string matrix
(Rust `items[i][j] = s`; the in-range side conditions under which this
models the panicking Rust indexing are established where it is used). -/
def set2 (items : List (List Str)) (i j : ℕ) (v : Str) : List (List Str) :=
  items.set i ((items.getD i []).set j v)

/-- Read row `i`, column `j` of a string matrix, with the empty string as the
out-of-range default. -/
def cellD (items : List (List Str)) (i j : ℕ) : Str :=
  (items.getD i []).getD j []

/-- The row gaps in dispatch order: adjacent horizontal-separator pairs in
reverse list order (`windows(2).rev()` in src/main.rs line 447). -/
def rowWindows (g : Grid) : List (HorizSep × HorizSep) :=
  (windows2 g.horizontals).reverse

/-- The column gaps in dispatch order: adjacent vertical-separator pairs in
list order (`windows(2)` in src/main.rs line 449). -/
def colWindows (g : Grid) : List (VertSep × VertSep) :=
  windows2 g.verticals

/-- The flat job list of `BackgroundOCR::on_exec`: the cartesian product of
the enumerated row gaps and the enumerated column gaps (src/main.rs lines
444-450). -/
def jobList (g : Grid) : List ((ℕ × (HorizSep × HorizSep)) × (ℕ × (VertSep × VertSep))) :=
  enumerate (rowWindows g) ×ˢ enumerate (colWindows g)

/-- The result-collection step of `on_exec` (src/main.rs lines 499-506): fold
the per-job results into the pre-initialized matrix, writing only the
successful cells. -/
def fillStep (items : List (List Str)) (r : ℕ × ℕ × JobResult) : List (List Str) :=
  match r.2.2.outcome with
  | .ok s => set2 items r.1 r.2.1 s
  | _ => items

/-- The empty-string matrix `on_exec` allocates before dispatch
(src/main.rs lines 437-440): `horizontals.len() - 1` rows of
`verticals.len() - 1` empty strings. -/
def initItems (g : Grid) : List (List Str) :=
  List.replicate (g.horizontals.length - 1)
    (List.replicate (g.verticals.length - 1) [])

/-- Rust `BackgroundOCR::on_exec` (src/main.rs lines 436-509) with the
external world abstracted into `env`, which assigns to each (row gap, column
gap) pair of separator windows the environment its job runs in.  Every job
of the cartesian product is evaluated; if any job panics (the `unwrap` on
`save_img`) the whole run aborts with no table (`none`), otherwise the
per-job results are folded into the pre-initialized matrix, failed jobs
contributing nothing.  The cell text of a successful job has already been
cleaned inside `runJob`, as in the source. -/
def on_exec (g : Grid) (co : CleaningOptions)
    (env : HorizSep × HorizSep → VertSep × VertSep → JobEnv) :
    Option (List (List Str)) :=
  let results := (jobList g).map
    (fun p => (p.1.1, p.2.1, runJob co (env p.1.2 p.2.2)))
  if results.any (fun r => r.2.2.outcome.isPanic) then none
  else some (results.foldl fillStep (initItems g))

/-- Pattern `%img_in%` of the command template. -/
def imgInPat : Str := ['%', 'i', 'm', 'g', '_', 'i', 'n', '%']

/-- Pattern `%txt_out%` of the command template. -/
def txtOutPat : Str := ['%', 't', 'x', 't', '_', 'o', 'u', 't', '%']

/-- Fuelled worker for `replaceAll`; the fuel only serves to make the
recursion structural, `replaceAll` supplies enough for the whole string. -/
def replaceGo (pat rep : Str) : ℕ → Str → Str
  | 0, s => s
  | fuel + 1, s =>
    if !pat.isEmpty && pat.isPrefixOf s
    then rep ++ replaceGo pat rep fuel (s.drop pat.length)
    else
      match s with
      | [] => []
      | c :: rest => c :: replaceGo pat rep fuel rest

/-- Rust `str::replace` for a nonempty pattern: replace every non-overlapping
occurrence, scanning left to right.  (Both call sites use the fixed nonempty
patterns `%img_in%` and `%txt_out%`.) -/
def replaceAll (pat rep s : Str) : Str :=
  replaceGo pat rep s.length s

/-- The per-job command materialization (src/main.rs lines 458-462):
substitute `%img_in%` with the crop path, then `%txt_out%` with the output
path. -/
def substCmd (tpl img txt : Str) : Str :=
  replaceAll txtOutPat txt (replaceAll imgInPat img tpl)

/-- The program-name extraction (src/main.rs lines 464-466):
`split_whitespace().next()` yields the first maximal run of non-whitespace
characters, or nothing when the command holds only whitespace — in which
case the source's `unwrap` panics. -/
def firstToken (s : Str) : Option Str :=
  match s.dropWhile isRustWhitespace with
  | [] => none
  | c :: rest => some ((c :: rest).takeWhile (fun a => !isRustWhitespace a))

/-- The staged parameters of the background task: Rust struct
`BackgroundOCR` (src/main.rs lines 414-427). -/
structure OCRParams where
  grid : Grid
  cim : ColorImage
  cmd_template : Str
  ready : Bool
  n_tasks : ℕ
  cleaning_options : CleaningOptions
deriving DecidableEq

/-- The `BackgroundTask` state machine the interactive loop polls
(egui_inspect; variants as matched in src/main.rs lines 570-591): `Starting`
holds the task awaiting parameters, `Ongoing` is the in-flight run (its
staged parameters travel with it), `Finished` keeps the task alongside the
produced table. -/
inductive BgState where
  | Starting (task : OCRParams)
  | Ongoing (task : OCRParams)
  | Finished (task : OCRParams) (result : Option TableEdit)
deriving DecidableEq

/-- Parameter staging performed under the Extract button (src/main.rs lines
576-584): snapshot the grid, image and command template, recompute the job
count and set the ready flag. -/
def stageParams (t : OCRParams) (g : Grid) (cim : ColorImage) (tpl : Str) : OCRParams :=
  { t with
    grid := g
    cim := cim
    cmd_template := tpl
    n_tasks := (g.horizontals.length - 1) * (g.verticals.length - 1)
    ready := true }

/-- Bool test for the Ongoing state, as computed in src/main.rs lines
570-573. -/
def BgState.isOngoing : BgState → Bool
  | .Ongoing _ => true
  | _ => false

/-- The Extract-request handling of one interactive-loop step (src/main.rs
lines 569-587): when the task is not ongoing and the button was clicked,
stage fresh parameters into a Starting or Finished task; in every other
situation the state is left untouched. -/
def extractStep (st : BgState) (clicked : Bool) (g : Grid) (cim : ColorImage)
    (tpl : Str) : BgState :=
  if !st.isOngoing && clicked then
    match st with
    | .Starting t => .Starting (stageParams t g cim tpl)
    | .Finished t r => .Finished (stageParams t g cim tpl) r
    | .Ongoing t => .Ongoing t
  else st

/-- The text a cell receives from its job when the table is assembled: the
cleaned output on success, the pre-initialized empty string otherwise. -/
def cellResult (co : CleaningOptions) (e : JobEnv) : Str :=
  match (runJob co e).outcome with
  | .ok s => s
  | _ => []

/-- Concrete 2x2 image used to instantiate the crop-safety theorem. -/
def demoImage2 : ColorImage :=
  { size := (2, 2)
    pixels := [⟨1, 2, 3, 4⟩, ⟨5, 6, 7, 8⟩, ⟨9, 10, 11, 12⟩, ⟨13, 14, 15, 16⟩] }

/-- Concrete empty image used to instantiate the background-task theorem. -/
def demoImage0 : ColorImage := { size := (0, 0), pixels := [] }

/-- Concrete staged parameters used to instantiate the background-task
theorem. -/
def demoParams : OCRParams :=
  { grid := { horizontals := [], verticals := [] }
    cim := demoImage0
    cmd_template := []
    ready := false
    n_tasks := 0
    cleaning_options := ⟨false, false, false, false⟩ }

/-- A sorted grid with 4 horizontal and 3 vertical separators, used to
instantiate the table-shape theorem. -/
def gridHV43 : Grid :=
  { horizontals := [⟨0⟩, ⟨1⟩, ⟨2⟩, ⟨3⟩], verticals := [⟨0⟩, ⟨1⟩, ⟨2⟩] }

/-- Environment in which every job's external interactions succeed and the
recognizer writes the single letter a. -/
def envAllOk : HorizSep × HorizSep → VertSep × VertSep → JobEnv :=
  fun _ _ =>
    { saveOk := true, spawnOk := true, waitOk := true, exitCode := 0
      readResult := some ['a'], removeImgOk := true, removeTxtOk := true }

/-- Environment in which every job's process spawn fails (a step-4 failure,
contained to the job by the question-mark operator). -/
def envSpawnFails : HorizSep × HorizSep → VertSep × VertSep → JobEnv :=
  fun _ _ =>
    { saveOk := true, spawnOk := false, waitOk := true, exitCode := 0
      readResult := some ['a'], removeImgOk := true, removeTxtOk := true }

/-- Environment in which persisting the crop image fails (a step-2 failure,
hitting the unwrap on save_img). -/
def envSaveFails : HorizSep × HorizSep → VertSep × VertSep → JobEnv :=
  fun _ _ =>
    { saveOk := false, spawnOk := true, waitOk := true, exitCode := 0
      readResult := some ['a'], removeImgOk := true, removeTxtOk := true }

/-! ## Helper lemmas -/

theorem applyOp_card (g : Grid) (op : GridOp)
    (hh : 2 ≤ g.horizontals.length) (hv : 2 ≤ g.verticals.length) :
    2 ≤ (applyOp g op).horizontals.length ∧ 2 ≤ (applyOp g op).verticals.length := by
  cases op with
  | addH y => simp only [applyOp, List.length_append, List.length_cons]; omega
  | addV x => simp only [applyOp, List.length_append, List.length_cons]; omega
  | remH =>
    by_cases h : 2 < g.horizontals.length
    · simp only [applyOp, if_pos h, List.eraseIdx_zero, List.length_tail]; omega
    · simp only [applyOp, if_neg h]; omega
  | remV =>
    by_cases h : 2 < g.verticals.length
    · simp only [applyOp, if_pos h, List.length_dropLast]; omega
    · simp only [applyOp, if_neg h]; omega

theorem foldl_applyOp_card (ops : List GridOp) (g : Grid)
    (hh : 2 ≤ g.horizontals.length) (hv : 2 ≤ g.verticals.length) :
    2 ≤ (ops.foldl applyOp g).horizontals.length ∧
    2 ≤ (ops.foldl applyOp g).verticals.length := by
  induction ops generalizing g with
  | nil => exact ⟨hh, hv⟩
  | cons op rest ih =>
    exact ih (applyOp g op) (applyOp_card g op hh hv).1 (applyOp_card g op hh hv).2

theorem exists_not_ws_of_dropWhile_cons {p : Char → Bool} {s : Str} {a : Char}
    {rest : Str} (h : s.dropWhile p = a :: rest) : a ∈ s ∧ p a = false := by
  have hmem : a ∈ s.dropWhile p := by rw [h]; exact List.mem_cons_self a rest
  have hhead : (s.dropWhile p).head? = some a := by rw [h]; rfl
  refine ⟨List.dropWhile_subset p hmem, ?_⟩
  have := List.head?_dropWhile_not p s
  rw [hhead] at this
  exact this

theorem clip_nonneg (x : ℚ) : 0 ≤ clip x :=
  le_min (le_max_right x 0) zero_le_one

theorem clip_le_one (x : ℚ) : clip x ≤ 1 :=
  min_le_right _ _

theorem clip_mono {a b : ℚ} (h : a ≤ b) : clip a ≤ clip b :=
  min_le_min (max_le_max h le_rfl) le_rfl

theorem clip_one_sub (m : ℚ) : clip (1 - m) = 1 - clip m := by
  unfold clip
  rcases le_total m 0 with h | h
  · rw [max_eq_right h, min_eq_left (zero_le_one), max_eq_left (by linarith),
      min_eq_right (by linarith)]
    ring
  · rcases le_total m 1 with h1 | h1
    · rw [max_eq_left h, min_eq_left h1, max_eq_left (by linarith),
        min_eq_left (by linarith)]
    · rw [max_eq_left h, min_eq_right h1, max_eq_right (by linarith),
        min_eq_left (zero_le_one)]
      ring

theorem toUsize_mono {a b : ℚ} (h : a ≤ b) : toUsize a ≤ toUsize b :=
  Int.toNat_le_toNat (Int.floor_le_floor h)

theorem toUsize_le_nat {q : ℚ} {n : ℕ} (h : q ≤ n) : toUsize q ≤ n := by
  unfold toUsize
  refine Int.toNat_le.mpr ?_
  calc (⌊q⌋ : ℤ) ≤ ⌊(n : ℚ)⌋ := Int.floor_le_floor h
    _ = n := Int.floor_natCast n

theorem cropI1_le_width (W : ℕ) (x1 x2 : ℚ) : cropI1 W x1 x2 ≤ W := by
  refine toUsize_le_nat ?_
  calc clip (max x1 x2) * W ≤ 1 * W :=
        mul_le_mul_of_nonneg_right (clip_le_one _) (Nat.cast_nonneg W)
    _ = W := one_mul _

theorem cropJ1_le_height (H : ℕ) (y1 y2 : ℚ) : cropJ1 H y1 y2 ≤ H := by
  refine toUsize_le_nat ?_
  calc clip (1 - min y1 y2) * H ≤ 1 * H :=
        mul_le_mul_of_nonneg_right (clip_le_one _) (Nat.cast_nonneg H)
    _ = H := one_mul _

theorem mem_cropIndices {W i0 i1 j0 j1 idx : ℕ} :
    idx ∈ cropIndices W i0 i1 j0 j1 ↔
      ∃ j, (j0 ≤ j ∧ j < j1) ∧ ∃ i, (i0 ≤ i ∧ i < i1) ∧ idx = j * W + i := by
  unfold cropIndices
  simp only [List.mem_flatMap, List.mem_map, List.mem_range'_1]
  constructor
  · rintro ⟨j, ⟨hj1, hj2⟩, i, ⟨hi1, hi2⟩, heq⟩
    exact ⟨j, ⟨hj1, by omega⟩, i, ⟨hi1, by omega⟩, heq.symm⟩
  · rintro ⟨j, ⟨hj1, hj2⟩, i, ⟨hi1, hi2⟩, heq⟩
    exact ⟨j, ⟨hj1, by omega⟩, i, ⟨hi1, by omega⟩, heq.symm⟩

theorem length_cropIndices (W i0 i1 j0 j1 : ℕ) :
    (cropIndices W i0 i1 j0 j1).length = (j1 - j0) * (i1 - i0) := by
  unfold cropIndices
  simp only [List.flatMap, List.map_map, List.length_flatten, Function.comp_def,
    List.length_map, List.length_range', List.map_const', List.sum_const_nat]

theorem length_crop_out (cim : ColorImage) (x1 x2 y1 y2 : ℚ) :
    (crop_buffer cim x1 x2 y1 y2).1.length =
      ((cropJ1 cim.size.2 y1 y2 - cropJ0 cim.size.2 y1 y2)
        * (cropI1 cim.size.1 x1 x2 - cropI0 cim.size.1 x1 x2)) * 4 := by
  unfold crop_buffer
  simp only [List.flatMap, List.map_map, List.length_flatten, Function.comp_def,
    List.length_cons, List.length_nil, List.map_const', List.sum_const_nat]
  rw [length_cropIndices]
  rfl

theorem getD_set_self {α : Type} {l : List α} {i : ℕ} {a d : α}
    (h : i < l.length) : (l.set i a).getD i d = a := by
  rw [List.getD_eq_getElem?_getD, List.getElem?_set_self h]
  rfl

theorem getD_set_ne {α : Type} {l : List α} {i k : ℕ} {a d : α} (h : i ≠ k) :
    (l.set i a).getD k d = l.getD k d := by
  rw [List.getD_eq_getElem?_getD, List.getElem?_set_ne h, ← List.getD_eq_getElem?_getD]

theorem getD_replicate_self {α : Type} {n : ℕ} {a : α} {i : ℕ} :
    (List.replicate n a).getD i a = a := by
  rcases lt_or_ge i n with h | h
  · have h' : i < (List.replicate n a).length := by simpa using h
    rw [List.getD_eq_getElem _ _ h', List.getElem_replicate]
  · rw [List.getD_eq_getElem?_getD, List.getElem?_eq_none (by simpa using h)]
    rfl

theorem cellD_set2_same {t : List (List Str)} {i j : ℕ} {v : Str}
    (hi : i < t.length) (hj : j < (t.getD i []).length) :
    cellD (set2 t i j v) i j = v := by
  unfold cellD set2
  rw [getD_set_self hi]
  exact getD_set_self hj

theorem cellD_set2_ne {t : List (List Str)} {i j i' j' : ℕ} {v : Str}
    (hne : (i, j) ≠ (i', j')) : cellD (set2 t i j v) i' j' = cellD t i' j' := by
  unfold cellD set2
  by_cases hi : i = i'
  · subst hi
    have hj : j ≠ j' := fun hc => hne (by rw [hc])
    by_cases hlen : i < t.length
    · rw [getD_set_self hlen, getD_set_ne hj]
    · rw [List.set_eq_of_length_le (le_of_not_lt hlen)]
  · rw [getD_set_ne hi]

theorem length_fillStep (t : List (List Str)) (r : ℕ × ℕ × JobResult) :
    (fillStep t r).length = t.length := by
  unfold fillStep
  split
  · unfold set2
    rw [List.length_set]
  · rfl

theorem rowlen_fillStep (t : List (List Str)) (r : ℕ × ℕ × JobResult) (i : ℕ) :
    ((fillStep t r).getD i []).length = (t.getD i []).length := by
  unfold fillStep
  split
  · unfold set2
    by_cases hi : r.1 = i
    · subst hi
      by_cases hlen : r.1 < t.length
      · rw [getD_set_self hlen, List.length_set]
      · rw [List.set_eq_of_length_le (le_of_not_lt hlen)]
    · rw [getD_set_ne hi]
  · rfl

theorem cellD_fillStep_ne {t : List (List Str)} {r : ℕ × ℕ × JobResult}
    {i j : ℕ} (h : (r.1, r.2.1) ≠ (i, j)) :
    cellD (fillStep t r) i j = cellD t i j := by
  unfold fillStep
  split
  · exact cellD_set2_ne h
  · rfl

theorem cellD_foldl_not_mem (rs : List (ℕ × ℕ × JobResult))
    (t : List (List Str)) (i j : ℕ)
    (h : ∀ r ∈ rs, (r.1, r.2.1) ≠ (i, j)) :
    cellD (rs.foldl fillStep t) i j = cellD t i j := by
  induction rs generalizing t with
  | nil => rfl
  | cons r rest ih =>
    rw [List.foldl_cons, ih _ (fun x hx => h x (List.mem_cons_of_mem r hx)),
      cellD_fillStep_ne (h r (List.mem_cons_self r rest))]

theorem length_foldl_fillStep (rs : List (ℕ × ℕ × JobResult))
    (t : List (List Str)) : (rs.foldl fillStep t).length = t.length := by
  induction rs generalizing t with
  | nil => rfl
  | cons r rest ih => rw [List.foldl_cons, ih, length_fillStep]

theorem rowlen_foldl_fillStep (rs : List (ℕ × ℕ × JobResult))
    (t : List (List Str)) (i : ℕ) :
    ((rs.foldl fillStep t).getD i []).length = (t.getD i []).length := by
  induction rs generalizing t with
  | nil => rfl
  | cons r rest ih => rw [List.foldl_cons, ih, rowlen_fillStep]

theorem cellD_foldl_fillStep (rs : List (ℕ × ℕ × JobResult))
    (t : List (List Str))
    (hnd : (rs.map (fun r => (r.1, r.2.1))).Nodup)
    {i j : ℕ} {res : JobResult} (hmem : (i, j, res) ∈ rs)
    (hi : i < t.length) (hj : j < (t.getD i []).length) :
    cellD (rs.foldl fillStep t) i j =
      (match res.outcome with
       | .ok s => s
       | _ => cellD t i j) := by
  induction rs generalizing t with
  | nil => cases hmem
  | cons r rest ih =>
    rw [List.map_cons, List.nodup_cons] at hnd
    obtain ⟨hnotin, hndrest⟩ := hnd
    rcases List.mem_cons.mp hmem with heq | hmemrest
    · subst heq
      rw [List.foldl_cons]
      have hnone : ∀ x ∈ rest, (x.1, x.2.1) ≠ (i, j) := by
        intro x hx hcontra
        exact hnotin (List.mem_map.mpr ⟨x, hx, hcontra⟩)
      rw [cellD_foldl_not_mem rest _ i j hnone]
      cases hres : res.outcome with
      | ok s =>
        have hstep : fillStep t (i, j, res) = set2 t i j s := by
          unfold fillStep
          rw [hres]
        rw [hstep]
        exact cellD_set2_same hi hj
      | panicked =>
        have hstep : fillStep t (i, j, res) = t := by
          unfold fillStep
          rw [hres]
        rw [hstep]
      | failed =>
        have hstep : fillStep t (i, j, res) = t := by
          unfold fillStep
          rw [hres]
        rw [hstep]
    · rw [List.foldl_cons]
      have hkey : (r.1, r.2.1) ≠ (i, j) := by
        intro hcontra
        refine hnotin ?_
        rw [hcontra]
        exact List.mem_map.mpr ⟨(i, j, res), hmemrest, rfl⟩
      have hi' : i < (fillStep t r).length := by rw [length_fillStep]; exact hi
      have hj' : j < ((fillStep t r).getD i []).length := by
        rw [rowlen_fillStep]; exact hj
      rw [ih (fillStep t r) hndrest hmemrest hi' hj']
      cases hres : res.outcome with
      | ok s => rfl
      | panicked => exact cellD_fillStep_ne hkey
      | failed => exact cellD_fillStep_ne hkey

theorem length_enumerate {α : Type} (l : List α) :
    (enumerate l).length = l.length := by
  simp [enumerate]

theorem map_fst_enumerate {α : Type} (l : List α) :
    (enumerate l).map Prod.fst = List.range l.length := by
  unfold enumerate
  exact List.map_fst_zip _ _ (by simp)

theorem mem_enumerate {α : Type} {l : List α} {i : ℕ} (h : i < l.length)
    (d : α) : (i, l.getD i d) ∈ enumerate l := by
  rw [List.mem_iff_getElem]
  have h1 : i < (enumerate l).length := by rw [length_enumerate]; exact h
  refine ⟨i, h1, ?_⟩
  unfold enumerate
  rw [List.getElem_zip]
  rw [List.getElem_range, List.getD_eq_getElem _ _ h]

theorem map_key_product {A B : Type} (e1 : List (ℕ × A)) (e2 : List (ℕ × B)) :
    (e1 ×ˢ e2).map (fun p => (p.1.1, p.2.1)) =
      (e1.map Prod.fst) ×ˢ (e2.map Prod.fst) := by
  simp only [SProd.sprod, List.product, List.map_flatMap, List.flatMap_map,
    List.map_map, Function.comp_def]

theorem nodup_keys_jobList (g : Grid) :
    ((jobList g).map (fun p => (p.1.1, p.2.1))).Nodup := by
  unfold jobList
  rw [map_key_product, map_fst_enumerate, map_fst_enumerate]
  exact List.Nodup.product (List.nodup_range _) (List.nodup_range _)

theorem runJob_not_panic {co : CleaningOptions} {env : JobEnv}
    (h : env.saveOk = true) : (runJob co env).outcome.isPanic = false := by
  rcases env with ⟨so, sp, wa, ec, rr, ri, rt⟩
  simp only at h
  subst h
  cases sp <;> cases wa <;> cases rr <;> cases ri <;> cases rt <;> rfl

theorem on_exec_eq_some (g : Grid) (co : CleaningOptions)
    (env : HorizSep × HorizSep → VertSep × VertSep → JobEnv)
    (hnp : ∀ hw vw, (env hw vw).saveOk = true) :
    on_exec g co env =
      some (((jobList g).map
          (fun p => (p.1.1, p.2.1, runJob co (env p.1.2 p.2.2)))).foldl
        fillStep (initItems g)) := by
  have hfalse : (((jobList g).map
      (fun p => (p.1.1, p.2.1, runJob co (env p.1.2 p.2.2)))).any
        (fun r => r.2.2.outcome.isPanic)) = false := by
    rw [List.any_eq_false]
    intro x hx
    obtain ⟨p, _, rfl⟩ := List.mem_map.mp hx
    simp [runJob_not_panic (hnp p.1.2 p.2.2)]
  unfold on_exec
  simp only [hfalse]
  rfl

theorem length_initItems (g : Grid) :
    (initItems g).length = g.horizontals.length - 1 := by
  simp [initItems]

theorem rowlen_initItems (g : Grid) (i : ℕ) (h : i < g.horizontals.length - 1) :
    ((initItems g).getD i []).length = g.verticals.length - 1 := by
  unfold initItems
  have h' : i < (List.replicate (g.horizontals.length - 1)
      (List.replicate (g.verticals.length - 1) ([] : Str))).length := by
    simpa using h
  rw [List.getD_eq_getElem _ _ h', List.getElem_replicate, List.length_replicate]

theorem cellD_initItems (g : Grid) (i j : ℕ) : cellD (initItems g) i j = [] := by
  unfold cellD initItems
  rcases lt_or_ge i (g.horizontals.length - 1) with h | h
  · have h' : i < (List.replicate (g.horizontals.length - 1)
        (List.replicate (g.verticals.length - 1) ([] : Str))).length := by
      simpa using h
    rw [List.getD_eq_getElem (List.replicate (g.horizontals.length - 1)
        (List.replicate (g.verticals.length - 1) ([] : Str))) [] h',
      List.getElem_replicate]
    exact getD_replicate_self
  · rw [List.getD_eq_getElem?_getD (List.replicate (g.horizontals.length - 1)
        (List.replicate (g.verticals.length - 1) ([] : Str))) i [],
      List.getElem?_eq_none (by simpa using h)]
    rfl

theorem length_windows2 {α : Type} : ∀ (l : List α),
    (windows2 l).length = l.length - 1
  | [] => rfl
  | [_] => rfl
  | a :: b :: rest => by
    have ih := length_windows2 (b :: rest)
    simp only [windows2, List.length_cons] at ih ⊢
    omega

theorem getD_windows2 {α : Type} (d : α) : ∀ (l : List α) (i : ℕ),
    i + 1 < l.length →
    (windows2 l).getD i (d, d) = (l.getD i d, l.getD (i + 1) d)
  | [], _, h => by simp at h
  | [_], _, h => by simp at h
  | _ :: b :: rest, 0, _ => by simp [windows2]
  | a :: b :: rest, i + 1, h => by
    have ih := getD_windows2 d (b :: rest) i (by
      simp only [List.length_cons] at h ⊢
      omega)
    simp only [windows2, List.getD_cons_succ]
    exact ih

theorem length_rowWindows (g : Grid) :
    (rowWindows g).length = g.horizontals.length - 1 := by
  unfold rowWindows
  rw [List.length_reverse, length_windows2]

theorem length_colWindows (g : Grid) :
    (colWindows g).length = g.verticals.length - 1 :=
  length_windows2 _

theorem getD_reverse {α : Type} {l : List α} {i : ℕ} (h : i < l.length)
    (d : α) : l.reverse.getD i d = l.getD (l.length - 1 - i) d := by
  have h1 : i < l.reverse.length := by simpa using h
  rw [List.getD_eq_getElem _ _ h1, List.getElem_reverse,
    List.getD_eq_getElem _ _ (by omega)]

theorem rowWindows_getD (g : Grid) (i : ℕ)
    (h : i + 1 < g.horizontals.length) :
    (rowWindows g).getD i (⟨0⟩, ⟨0⟩) =
      (g.horizontals.getD (g.horizontals.length - 2 - i) ⟨0⟩,
       g.horizontals.getD (g.horizontals.length - 1 - i) ⟨0⟩) := by
  unfold rowWindows
  have h1 : i < (windows2 g.horizontals).length := by
    rw [length_windows2]; omega
  rw [getD_reverse h1, length_windows2]
  have h2 : (g.horizontals.length - 1 - 1 - i) + 1 < g.horizontals.length := by
    omega
  rw [getD_windows2 _ _ _ h2]
  have e1 : g.horizontals.length - 1 - 1 - i = g.horizontals.length - 2 - i := by
    omega
  have e2 : g.horizontals.length - 1 - 1 - i + 1 = g.horizontals.length - 1 - i := by
    omega
  rw [e2, e1]

theorem job_mem (g : Grid) {i j : ℕ} (hi : i < (rowWindows g).length)
    (hj : j < (colWindows g).length) :
    ((i, (rowWindows g).getD i (⟨0⟩, ⟨0⟩)),
     (j, (colWindows g).getD j (⟨0⟩, ⟨0⟩))) ∈ jobList g :=
  List.pair_mem_product.mpr ⟨mem_enumerate hi _, mem_enumerate hj _⟩

theorem on_exec_cells (g : Grid) (co : CleaningOptions)
    (env : HorizSep × HorizSep → VertSep × VertSep → JobEnv)
    (hnp : ∀ hw vw, (env hw vw).saveOk = true) :
    on_exec g co env ≠ none
    ∧ ((on_exec g co env).getD []).length = g.horizontals.length - 1
    ∧ (∀ i, i < g.horizontals.length - 1 →
        (((on_exec g co env).getD []).getD i []).length = g.verticals.length - 1)
    ∧ (∀ i j, i < g.horizontals.length - 1 → j < g.verticals.length - 1 →
        cellD ((on_exec g co env).getD []) i j =
          cellResult co (env ((rowWindows g).getD i (⟨0⟩, ⟨0⟩))
            ((colWindows g).getD j (⟨0⟩, ⟨0⟩)))) := by
  rw [on_exec_eq_some g co env hnp]
  refine ⟨Option.some_ne_none _, ?_, ?_, ?_⟩
  · rw [Option.getD_some, length_foldl_fillStep, length_initItems]
  · intro i h
    rw [Option.getD_some, rowlen_foldl_fillStep, rowlen_initItems g i h]
  · intro i j hi hj
    rw [Option.getD_some]
    have hi' : i < (initItems g).length := by rw [length_initItems]; exact hi
    have hj' : j < ((initItems g).getD i []).length := by
      rw [rowlen_initItems g i hi]; exact hj
    have hiw : i < (rowWindows g).length := by rw [length_rowWindows]; exact hi
    have hjw : j < (colWindows g).length := by rw [length_colWindows]; exact hj
    have hmem : (i, j, runJob co (env ((rowWindows g).getD i (⟨0⟩, ⟨0⟩))
        ((colWindows g).getD j (⟨0⟩, ⟨0⟩)))) ∈
        (jobList g).map (fun p => (p.1.1, p.2.1, runJob co (env p.1.2 p.2.2))) :=
      List.mem_map.mpr ⟨((i, (rowWindows g).getD i (⟨0⟩, ⟨0⟩)),
        (j, (colWindows g).getD j (⟨0⟩, ⟨0⟩))), job_mem g hiw hjw, rfl⟩
    have hnd : (((jobList g).map
        (fun p => (p.1.1, p.2.1, runJob co (env p.1.2 p.2.2)))).map
          (fun r => (r.1, r.2.1))).Nodup := by
      rw [List.map_map]
      exact nodup_keys_jobList g
    rw [cellD_foldl_fillStep _ (initItems g) hnd hmem hi' hj']
    unfold cellResult
    cases hres : (runJob co (env ((rowWindows g).getD i (⟨0⟩, ⟨0⟩))
        ((colWindows g).getD j (⟨0⟩, ⟨0⟩)))).outcome <;>
      simp only [hres, cellD_initItems]

theorem sorted_headD_rel_getLastD {α : Type} {r : α → α → Prop} [IsRefl α r]
    {l : List α} (hs : l.Sorted r) (hne : l ≠ []) (d : α) :
    r (l.headD d) (l.getLastD d) := by
  cases l with
  | nil => exact absurd rfl hne
  | cons a t =>
    have hlast : (a :: t).getLastD d = (a :: t).getLast (List.cons_ne_nil a t) := by
      rw [List.getLastD_eq_getLast?, List.getLast?_eq_getLast (a :: t) (List.cons_ne_nil a t)]
      rfl
    rw [hlast]
    have hmem := List.getLast_mem (List.cons_ne_nil a t)
    rcases List.mem_cons.mp hmem with heq | hmem'
    · rw [List.headD_cons, heq]
      exact IsRefl.refl a
    · exact List.rel_of_sorted_cons hs _ hmem'

/-! ## Claim theorems and witnesses -/

/-- Claim C2: for a source image whose pixel vector has length
width * height and arbitrary rational inputs (including values outside the
unit interval), crop_buffer dereferences only in-bounds pixel indices,
returns a byte buffer of exactly 4 * (i1 - i0) * (j1 - j0) bytes with
reported size (i1 - i0, j1 - j0), and a degenerate rectangle yields a
zero-area buffer rather than an error. -/
theorem C2_crop_buffer_safety (cim : ColorImage) (x1 x2 y1 y2 : ℚ)
    (hlen : cim.pixels.length = cim.size.1 * cim.size.2) :
    (∀ idx ∈ cropIndices cim.size.1 (cropI0 cim.size.1 x1 x2)
        (cropI1 cim.size.1 x1 x2) (cropJ0 cim.size.2 y1 y2)
        (cropJ1 cim.size.2 y1 y2),
      idx < cim.pixels.length)
    ∧ (crop_buffer cim x1 x2 y1 y2).1.length =
        4 * (cropI1 cim.size.1 x1 x2 - cropI0 cim.size.1 x1 x2)
          * (cropJ1 cim.size.2 y1 y2 - cropJ0 cim.size.2 y1 y2)
    ∧ (crop_buffer cim x1 x2 y1 y2).2 =
        (cropI1 cim.size.1 x1 x2 - cropI0 cim.size.1 x1 x2,
         cropJ1 cim.size.2 y1 y2 - cropJ0 cim.size.2 y1 y2)
    ∧ ((cropI0 cim.size.1 x1 x2 = cropI1 cim.size.1 x1 x2
        ∨ cropJ0 cim.size.2 y1 y2 = cropJ1 cim.size.2 y1 y2) →
        (crop_buffer cim x1 x2 y1 y2).1.length = 0) := by
  refine ⟨?_, ?_, rfl, ?_⟩
  · intro idx hidx
    obtain ⟨j, ⟨_, hj2⟩, i, ⟨_, hi2⟩, rfl⟩ := mem_cropIndices.mp hidx
    have hiW : i < cim.size.1 := lt_of_lt_of_le hi2 (cropI1_le_width _ x1 x2)
    have hjH : j < cim.size.2 := lt_of_lt_of_le hj2 (cropJ1_le_height _ y1 y2)
    rw [hlen]
    calc j * cim.size.1 + i < j * cim.size.1 + cim.size.1 := by omega
      _ = (j + 1) * cim.size.1 := by ring
      _ ≤ cim.size.2 * cim.size.1 := Nat.mul_le_mul_right _ (by omega)
      _ = cim.size.1 * cim.size.2 := Nat.mul_comm _ _
  · rw [length_crop_out]
    ring
  · intro hdeg
    rw [length_crop_out]
    rcases hdeg with h | h <;> rw [h] <;> simp

/-- Witness for C2 at a concrete 2x2 image: full-frame crop size and a
degenerate zero-width crop. -/
theorem C2_crop_buffer_safety_witness :
    demoImage2.pixels.length = demoImage2.size.1 * demoImage2.size.2
    ∧ (crop_buffer demoImage2 0 1 0 1).1.length =
        4 * (cropI1 demoImage2.size.1 0 1 - cropI0 demoImage2.size.1 0 1)
          * (cropJ1 demoImage2.size.2 0 1 - cropJ0 demoImage2.size.2 0 1)
    ∧ (crop_buffer demoImage2 0 1 0 1).2 =
        (cropI1 demoImage2.size.1 0 1 - cropI0 demoImage2.size.1 0 1,
         cropJ1 demoImage2.size.2 0 1 - cropJ0 demoImage2.size.2 0 1)
    ∧ (crop_buffer demoImage2 (1/2) (1/2) 0 1).1.length = 0 :=
  ⟨rfl, (C2_crop_buffer_safety demoImage2 0 1 0 1 rfl).2.1,
   (C2_crop_buffer_safety demoImage2 0 1 0 1 rfl).2.2.1,
   (C2_crop_buffer_safety demoImage2 (1/2) (1/2) 0 1 rfl).2.2.2
     (Or.inl (by rw [cropI0, cropI1, min_self, max_self]))⟩

/-- Claim C3: the pixel bounds of crop_buffer agree with the specified
formulas floor of clamp(min x) * W, clamp(max x) * W,
(1 - clamp(max y)) * H, (1 - clamp(min y)) * H — realizing the vertical-axis
inversion; the visited flat indices are exactly the row-major rectangle
[i0, i1) x [j0, j1); and on a 400x200 image the inputs
(0.25, 0.75, 0.0, 1.0) give columns [100, 300) and rows [0, 200). -/
theorem C3_crop_bounds_formulas :
    (∀ (W H : ℕ) (x1 x2 y1 y2 : ℚ),
        cropBounds W H x1 x2 y1 y2 =
          ((⌊clip (min x1 x2) * W⌋).toNat, (⌊clip (max x1 x2) * W⌋).toNat,
           (⌊(1 - clip (max y1 y2)) * H⌋).toNat,
           (⌊(1 - clip (min y1 y2)) * H⌋).toNat))
    ∧ (∀ W i0 i1 j0 j1 idx : ℕ,
        idx ∈ cropIndices W i0 i1 j0 j1 ↔
          ∃ j, (j0 ≤ j ∧ j < j1) ∧ ∃ i, (i0 ≤ i ∧ i < i1) ∧ idx = j * W + i)
    ∧ cropBounds 400 200 (1/4) (3/4) 0 1 = (100, 300, 0, 200) := by
  refine ⟨?_, fun W i0 i1 j0 j1 idx => mem_cropIndices, ?_⟩
  · intro W H x1 x2 y1 y2
    simp only [cropBounds, cropI0, cropI1, cropJ0, cropJ1, toUsize, clip_one_sub]
  · norm_num [cropBounds, cropI0, cropI1, cropJ0, cropJ1, toUsize, clip]
    refine ⟨rfl, rfl, rfl⟩

/-- Claim C1 counterexample: a crop-save failure (a step-2 I/O failure,
covered by the claim) hits the unwrap on save_img and panics, aborting the
entire run — no table is produced, contradicting the claim that the run
completes with only that job's cell left empty. -/
theorem C1_counterexample_save_failure_aborts_run :
    on_exec defaultGrid defaultCleaningOptions envSaveFails = none := rfl

/-- Claim C1 (amended): when no job's crop-save step fails, a failure
signalled through a job's Result (spawn error, wait error, missing or
unreadable output file, cleanup I/O error) marks only that job as failed —
its cell stays the pre-initialized empty string — while every sibling job's
cell receives its own result and the run completes with a table. -/
theorem C1_failure_isolation_amended (g : Grid) (co : CleaningOptions)
    (env : HorizSep × HorizSep → VertSep × VertSep → JobEnv)
    (hnp : ∀ hw vw, (env hw vw).saveOk = true) :
    on_exec g co env ≠ none
    ∧ (∀ i j, i < g.horizontals.length - 1 → j < g.verticals.length - 1 →
        ((runJob co (env ((rowWindows g).getD i (⟨0⟩, ⟨0⟩))
            ((colWindows g).getD j (⟨0⟩, ⟨0⟩)))).outcome = .failed →
          cellD ((on_exec g co env).getD []) i j = [])
        ∧ (∀ s, (runJob co (env ((rowWindows g).getD i (⟨0⟩, ⟨0⟩))
            ((colWindows g).getD j (⟨0⟩, ⟨0⟩)))).outcome = .ok s →
          cellD ((on_exec g co env).getD []) i j = s)) := by
  obtain ⟨h1, _, _, h4⟩ := on_exec_cells g co env hnp
  refine ⟨h1, fun i j hi hj => ⟨fun hfail => ?_, fun s hok => ?_⟩⟩
  · rw [h4 i j hi hj]
    unfold cellResult
    rw [hfail]
  · rw [h4 i j hi hj]
    unfold cellResult
    rw [hok]

/-- Witness for the amended C1: on the default grid with every job's spawn
failing, the single cell is left empty. -/
theorem C1_failure_isolation_amended_witness :
    cellD ((on_exec defaultGrid defaultCleaningOptions envSpawnFails).getD [])
      0 0 = [] :=
  ((C1_failure_isolation_amended defaultGrid defaultCleaningOptions
      envSpawnFails (fun _ _ => rfl)).2 0 0 (by decide) (by decide)).1 rfl

/-- Claim C4: with sorted separators at dispatch time (H horizontal, V
vertical, each at least 2) and no crop-save panic, the run produces an
(H-1) x (V-1) table; cell (i, j) is filled from the job of the i-th
adjacent horizontal pair in reverse sorted order and the j-th adjacent
vertical pair in ascending order, the i-th reverse pair being the
separators at positions H-2-i and H-1-i (so row 0 is the top-most gap,
formed by the two highest y positions) and the j-th ascending pair the
separators at positions j and j+1. -/
theorem C4_table_assembly_orientation (g : Grid) (co : CleaningOptions)
    (env : HorizSep × HorizSep → VertSep × VertSep → JobEnv)
    (_hH : 2 ≤ g.horizontals.length) (_hV : 2 ≤ g.verticals.length)
    (_hsh : g.horizontals.Sorted HorizSep.le)
    (_hsv : g.verticals.Sorted VertSep.le)
    (hnp : ∀ hw vw, (env hw vw).saveOk = true) :
    on_exec g co env ≠ none
    ∧ ((on_exec g co env).getD []).length = g.horizontals.length - 1
    ∧ (∀ i, i < g.horizontals.length - 1 →
        (((on_exec g co env).getD []).getD i []).length = g.verticals.length - 1)
    ∧ (∀ i j, i < g.horizontals.length - 1 → j < g.verticals.length - 1 →
        cellD ((on_exec g co env).getD []) i j =
          cellResult co (env ((rowWindows g).getD i (⟨0⟩, ⟨0⟩))
            ((colWindows g).getD j (⟨0⟩, ⟨0⟩))))
    ∧ (∀ i, i + 1 < g.horizontals.length →
        (rowWindows g).getD i (⟨0⟩, ⟨0⟩) =
          (g.horizontals.getD (g.horizontals.length - 2 - i) ⟨0⟩,
           g.horizontals.getD (g.horizontals.length - 1 - i) ⟨0⟩))
    ∧ (∀ j, j + 1 < g.verticals.length →
        (colWindows g).getD j (⟨0⟩, ⟨0⟩) =
          (g.verticals.getD j ⟨0⟩, g.verticals.getD (j + 1) ⟨0⟩)) := by
  obtain ⟨h1, h2, h3, h4⟩ := on_exec_cells g co env hnp
  refine ⟨h1, h2, h3, h4, fun i hi => rowWindows_getD g i hi, fun j hj => ?_⟩
  unfold colWindows
  exact getD_windows2 ⟨0⟩ g.verticals j hj

/-- Witness for C4 on a grid with 4 horizontal and 3 vertical separators:
the table has 3 rows of 2 columns, and row 0 comes from the top-most
(highest-y) adjacent horizontal pair. -/
theorem C4_table_assembly_orientation_witness :
    ((on_exec gridHV43 defaultCleaningOptions envAllOk).getD []).length = 3
    ∧ (((on_exec gridHV43 defaultCleaningOptions envAllOk).getD []).getD 0
        []).length = 2
    ∧ cellD ((on_exec gridHV43 defaultCleaningOptions envAllOk).getD []) 0 0 =
        cellResult defaultCleaningOptions
          (envAllOk ((rowWindows gridHV43).getD 0 (⟨0⟩, ⟨0⟩))
            ((colWindows gridHV43).getD 0 (⟨0⟩, ⟨0⟩)))
    ∧ (rowWindows gridHV43).getD 0 (⟨0⟩, ⟨0⟩) =
        (gridHV43.horizontals.getD (gridHV43.horizontals.length - 2 - 0) ⟨0⟩,
         gridHV43.horizontals.getD (gridHV43.horizontals.length - 1 - 0) ⟨0⟩) :=
  ⟨((C4_table_assembly_orientation gridHV43 defaultCleaningOptions envAllOk
      (by decide) (by decide) (by decide) (by decide) (fun _ _ => rfl)).2.1).trans
    rfl,
   (((C4_table_assembly_orientation gridHV43 defaultCleaningOptions envAllOk
      (by decide) (by decide) (by decide) (by decide) (fun _ _ => rfl)).2.2.1) 0
      (by decide)).trans rfl,
   ((C4_table_assembly_orientation gridHV43 defaultCleaningOptions envAllOk
      (by decide) (by decide) (by decide) (by decide) (fun _ _ => rfl)).2.2.2.1) 0 0
      (by decide) (by decide),
   ((C4_table_assembly_orientation gridHV43 defaultCleaningOptions envAllOk
      (by decide) (by decide) (by decide) (by decide) (fun _ _ => rfl)).2.2.2.2.1) 0
      (by decide)⟩

/-- Claim C5: starting from the default grid (two horizontal and two vertical
separators), any sequence of add/remove operations keeps at least 2
separators in each sequence, and a remove request on a sequence of exactly 2
members is a no-op leaving the grid unchanged. -/
theorem C5_grid_min_separators :
    (∀ ops : List GridOp,
        2 ≤ (ops.foldl applyOp defaultGrid).horizontals.length ∧
        2 ≤ (ops.foldl applyOp defaultGrid).verticals.length)
    ∧ (∀ g : Grid, g.horizontals.length = 2 → applyOp g .remH = g)
    ∧ (∀ g : Grid, g.verticals.length = 2 → applyOp g .remV = g) := by
  refine ⟨fun ops => foldl_applyOp_card ops defaultGrid (by decide) (by decide),
    fun g h => ?_, fun g h => ?_⟩
  · simp only [applyOp, h]
    norm_num
  · simp only [applyOp, h]
    norm_num

/-- Witness for C5 at a concrete operation sequence and at grids with exactly
two separators per orientation. -/
theorem C5_grid_min_separators_witness :
    (defaultGrid.horizontals.length = 2 ∧ defaultGrid.verticals.length = 2)
    ∧ (2 ≤ ([GridOp.addH 1, GridOp.remH, GridOp.remV].foldl applyOp
          defaultGrid).horizontals.length ∧
       2 ≤ ([GridOp.addH 1, GridOp.remH, GridOp.remV].foldl applyOp
          defaultGrid).verticals.length)
    ∧ applyOp defaultGrid .remH = defaultGrid
    ∧ applyOp defaultGrid .remV = defaultGrid :=
  ⟨⟨rfl, rfl⟩,
   C5_grid_min_separators.1 [GridOp.addH 1, GridOp.remH, GridOp.remV],
   C5_grid_min_separators.2.1 defaultGrid rfl,
   C5_grid_min_separators.2.2 defaultGrid rfl⟩

/-- Claim C6: the output cleaner is a pure function of the raw text and the
cleaning options, applying the enabled steps in the fixed order
whitespace-trim, single-quote-trim (ASCII apostrophe pass then U+2018 pass),
double-quote-trim, newline-removal; the default options enable all four, and
on the input consisting of space, quote, hello world, quote, newline the
default configuration yields hello world. -/
theorem C6_cleaning_pipeline :
    (∀ (co : CleaningOptions) (s : Str),
        cleanText co s = cleanStepD co (cleanStepC co (cleanStepB co (cleanStepA co s))))
    ∧ defaultCleaningOptions = ⟨true, true, true, true⟩
    ∧ cleanText defaultCleaningOptions
        [' ', '\'', 'h', 'e', 'l', 'l', 'o', ' ', 'w', 'o', 'r', 'l', 'd', '\'', '\n']
      = ['h', 'e', 'l', 'l', 'o', ' ', 'w', 'o', 'r', 'l', 'd'] :=
  ⟨fun _ _ => rfl, rfl, by decide⟩

/-- Claim C7 (code bug): when reading the output text file fails, the early
return through the question-mark operator skips both remove_file calls, so
neither temporary file is deleted — against the stated best-effort-cleanup
contract; on the success path both are deleted. -/
theorem C7_read_failure_skips_deletion :
    runJob defaultCleaningOptions
      { saveOk := true, spawnOk := true, waitOk := true, exitCode := 0
        readResult := none, removeImgOk := true, removeTxtOk := true }
      = ⟨.failed, false, false⟩
    ∧ runJob defaultCleaningOptions
      { saveOk := true, spawnOk := true, waitOk := true, exitCode := 0
        readResult := some ['a'], removeImgOk := true, removeTxtOk := true }
      = ⟨.ok ['a'], true, true⟩ :=
  ⟨rfl, by decide⟩

/-- Claim C8: after sorting (every separator position being an actual
rational, the embedded image of the no-NaN hypothesis, under which the
modelled partial comparison always succeeds), each separator sequence is
non-decreasing by position and the derived extents satisfy first <= last on
both axes. -/
theorem C8_sort_nondecreasing_extents (g : Grid)
    (hh : g.horizontals ≠ []) (hv : g.verticals ≠ []) :
    (Grid.sort_horiz (Grid.sort_vert g)).horizontals.Sorted HorizSep.le
    ∧ (Grid.sort_horiz (Grid.sort_vert g)).verticals.Sorted VertSep.le
    ∧ (update_extents (Grid.sort_horiz (Grid.sort_vert g))).ymin ≤
        (update_extents (Grid.sort_horiz (Grid.sort_vert g))).ymax
    ∧ (update_extents (Grid.sort_horiz (Grid.sort_vert g))).xmin ≤
        (update_extents (Grid.sort_horiz (Grid.sort_vert g))).xmax
    ∧ (∀ a b : ℚ, (pcmpQ a b).isSome = true) := by
  have hsh : (Grid.sort_horiz (Grid.sort_vert g)).horizontals.Sorted HorizSep.le :=
    List.sorted_insertionSort HorizSep.le g.horizontals
  have hsv : (Grid.sort_horiz (Grid.sort_vert g)).verticals.Sorted VertSep.le :=
    List.sorted_insertionSort VertSep.le g.verticals
  have hneh : (Grid.sort_horiz (Grid.sort_vert g)).horizontals ≠ [] := by
    refine List.ne_nil_of_length_pos ?_
    rw [show (Grid.sort_horiz (Grid.sort_vert g)).horizontals =
        List.insertionSort HorizSep.le g.horizontals from rfl,
      List.length_insertionSort]
    exact List.length_pos_of_ne_nil hh
  have hnev : (Grid.sort_horiz (Grid.sort_vert g)).verticals ≠ [] := by
    refine List.ne_nil_of_length_pos ?_
    rw [show (Grid.sort_horiz (Grid.sort_vert g)).verticals =
        List.insertionSort VertSep.le g.verticals from rfl,
      List.length_insertionSort]
    exact List.length_pos_of_ne_nil hv
  exact ⟨hsh, hsv, sorted_headD_rel_getLastD hsh hneh ⟨0⟩,
    sorted_headD_rel_getLastD hsv hnev ⟨0⟩, fun a b => rfl⟩

/-- Witness for C8 at the default grid. -/
theorem C8_sort_nondecreasing_extents_witness :
    (Grid.sort_horiz (Grid.sort_vert defaultGrid)).horizontals.Sorted HorizSep.le
    ∧ (Grid.sort_horiz (Grid.sort_vert defaultGrid)).verticals.Sorted VertSep.le
    ∧ (update_extents (Grid.sort_horiz (Grid.sort_vert defaultGrid))).ymin ≤
        (update_extents (Grid.sort_horiz (Grid.sort_vert defaultGrid))).ymax
    ∧ (update_extents (Grid.sort_horiz (Grid.sort_vert defaultGrid))).xmin ≤
        (update_extents (Grid.sort_horiz (Grid.sort_vert defaultGrid))).xmax :=
  ⟨(C8_sort_nondecreasing_extents defaultGrid (by simp [defaultGrid])
      (by simp [defaultGrid])).1,
   (C8_sort_nondecreasing_extents defaultGrid (by simp [defaultGrid])
      (by simp [defaultGrid])).2.1,
   (C8_sort_nondecreasing_extents defaultGrid (by simp [defaultGrid])
      (by simp [defaultGrid])).2.2.1,
   (C8_sort_nondecreasing_extents defaultGrid (by simp [defaultGrid])
      (by simp [defaultGrid])).2.2.2.1⟩

/-- Claim C9: an Extract request arriving while the background task is
Ongoing leaves the state — and with it the in-flight task's staged
parameters — completely unchanged, and any interactive-loop step that does
change the task state started from the Starting or Finished state. -/
theorem C9_running_guard :
    (∀ (t : OCRParams) (clicked : Bool) (g : Grid) (cim : ColorImage) (tpl : Str),
        extractStep (.Ongoing t) clicked g cim tpl = .Ongoing t)
    ∧ (∀ (st : BgState) (clicked : Bool) (g : Grid) (cim : ColorImage) (tpl : Str),
        extractStep st clicked g cim tpl ≠ st → st.isOngoing = false) := by
  constructor
  · intro t clicked g cim tpl
    rfl
  · intro st clicked g cim tpl hne
    cases st with
    | Starting t => rfl
    | Ongoing t => exact absurd rfl hne
    | Finished t r => rfl

/-- Witness for C9: a concrete Ongoing state survives an Extract click
untouched, and a concrete Starting state that does change is classified as
not ongoing. -/
theorem C9_running_guard_witness :
    extractStep (.Ongoing demoParams) true defaultGrid demoImage0 [] = .Ongoing demoParams
    ∧ (BgState.Starting demoParams).isOngoing = false :=
  ⟨C9_running_guard.1 demoParams true defaultGrid demoImage0 [],
   C9_running_guard.2 (.Starting demoParams) true defaultGrid demoImage0 []
     (by decide)⟩

/-- Claim C10: after placeholder substitution, the program-name extraction
succeeds exactly when the materialized command has a non-whitespace
character; an all-whitespace command yields no token, on which the source
unwraps and panics rather than failing the job. -/
theorem C10_command_token_extraction (tpl img txt : Str) :
    ((∃ c ∈ substCmd tpl img txt, isRustWhitespace c = false) →
      (firstToken (substCmd tpl img txt)).isSome = true)
    ∧ ((∀ c ∈ substCmd tpl img txt, isRustWhitespace c = true) →
      firstToken (substCmd tpl img txt) = none) := by
  constructor
  · rintro ⟨c, hc, hcw⟩
    unfold firstToken
    cases hdrop : (substCmd tpl img txt).dropWhile isRustWhitespace with
    | nil =>
      have := List.dropWhile_eq_nil_iff.mp hdrop c hc
      simp [hcw] at this
    | cons a rest => simp
  · intro h
    unfold firstToken
    have hnil : (substCmd tpl img txt).dropWhile isRustWhitespace = [] :=
      List.dropWhile_eq_nil_iff.mpr (fun x hx => by simp [h x hx])
    rw [hnil]

/-- Witness for C10 at a one-letter template with empty substitutions. -/
theorem C10_command_token_extraction_witness :
    (firstToken (substCmd ['x'] [] [])).isSome = true
    ∧ firstToken (substCmd [' '] [] []) = none :=
  ⟨(C10_command_token_extraction ['x'] [] []).1 (by decide),
   (C10_command_token_extraction [' '] [] []).2 (by decide)⟩

end TableOCR
